import Mathlib

/-!
Verification of the fledge control dispatcher service against its
natural-language specification.  The definitions below are a shallow
embedding of the C++ sources under src/C/services:  each definition names
the source function it embeds.  External collaborators (the Reading and
Datapoint classes of the fledge core library, the C runtime functions
strtol and the filter plugins) are modelled from the specification, as
noted in the corresponding doc comments.
-/

namespace FledgeDispatcher

/-! ### Key/value lists (kvlist.cpp / kvlist.h)

The class KVList holds an ordered list of (key, value) string pairs in
the member m_list. -/

structure KVList where
  m_list : List (String × String)
deriving DecidableEq, Repr

/-- The scan of KVList::getValue over m_list. -/
def KVList.getValueList : List (String × String) → String → String
  | [], _ => ""
  | p :: rest, key => if p.1 = key then p.2 else KVList.getValueList rest key

/-- KVList::getValue (kvlist.cpp lines 63-71): first-match lookup,
returning the empty string when the key is absent. -/
def KVList.getValue (k : KVList) (key : String) : String :=
  KVList.getValueList k.m_list key

/-- Modelled from the spec: StringEscapeQuotes of the external
string_utils library escapes embedded double quotes. -/
def escapeQuotes (s : String) : String :=
  String.mk (s.data.foldr (fun c acc => if c = '"' then '\\' :: '"' :: acc else c :: acc) [])

/-- KVList::toJSON (kvlist.cpp lines 78-95): serialise the pair list as a
JSON object, separating entries by a comma and escaping quotes in values. -/
def KVList.toJSON (k : KVList) : String :=
  "\x7b " ++
    String.intercalate ", "
      (k.m_list.map (fun p => "\"" ++ p.1 ++ "\" :" ++ "\"" ++ escapeQuotes p.2 ++ "\"")) ++
    " \x7d"

/-! ### Macro substitution (KVList::substitute, kvlist.cpp lines 140-165)

The C++ loop walks the value with size_t positions, where
std::string::npos is 2^64 - 1 and all arithmetic wraps modulo 2^64.
The loop body appends to rval; it does not terminate for every input, so
the embedding uses explicit fuel: the result none means the C++ loop has
not produced a value within the given number of iterations. -/

/-- std::string::npos on a 64-bit platform. -/
def npos : Nat := 2 ^ 64 - 1

/-- Helper for find_first_of: index of the first occurrence of c at
index ≥ pos in the character list (idx is the index of the list head),
or npos when there is none. -/
def findFirstOfFrom : List Char → Char → Nat → Nat → Nat
  | [], _, _, _ => npos
  | x :: xs, c, idx, pos =>
      if pos ≤ idx ∧ x = c then idx else findFirstOfFrom xs c (idx + 1) pos

/-- value.find_first_of of a dollar sign starting at pos. -/
def findDollar (value : String) (pos : Nat) : Nat :=
  findFirstOfFrom value.data '$' 0 pos

/-- value.substr(pos, len). -/
def substrPosLen (value : String) (pos len : Nat) : String :=
  String.mk ((value.data.drop pos).take len)

/-- value.substr(pos): the remainder of the value from pos. -/
def substrFrom (value : String) (pos : Nat) : String :=
  String.mk (value.data.drop pos)

/-- The while loop of KVList::substitute (kvlist.cpp lines 144-159), one
fuel unit per iteration.  On an unterminated macro the source sets
p1 = dend + 1 with dend equal to npos, which wraps to 0 in size_t
arithmetic; the embedding keeps that wrap as addition modulo 2^64. -/
def substituteLoop (values : KVList) (value : String) : Nat → Nat → String → Option String
  | 0, _, _ => none
  | fuel + 1, p1, rval =>
      let dstart := findDollar value p1
      if dstart = npos then
        some (rval ++ substrFrom value p1)
      else
        let rval1 := rval ++ substrPosLen value p1 (dstart - p1)
        let ds1 := dstart + 1
        let dend := findDollar value ds1
        let rval2 :=
          if dend ≠ npos then
            rval1 ++ values.getValue (substrPosLen value ds1 (dend - ds1))
          else
            rval1
        substituteLoop values value fuel ((dend + 1) % 2 ^ 64) rval2

/-- KVList::substitute on a single value.  Each completed iteration that
finds a closing dollar advances p1 by at least two, so value.length + 2
fuel units are enough for every terminating run of the C++ loop; none
therefore means the source loop diverges on this input. -/
def substituteString (values : KVList) (value : String) : Option String :=
  substituteLoop values value (value.length + 2) 0 ""

/-- KVList::substitute over the whole list (kvlist.cpp lines 126-132). -/
def KVList.substitute (k values : KVList) : Option KVList :=
  (k.m_list.mapM (fun p => (substituteString values p.2).map (fun v => (p.1, v)))).map KVList.mk

/-! ### Conversion to and from readings (kvlist.cpp lines 173-282)

Reading and Datapoint come from the external fledge core library and are
modelled from the spec: a reading is an asset-named bundle of data
points, each data point a (name, typed value) pair with the value a
string, an integer or a float.  The float payload of a data point is
modelled opaquely by the text handed to strtod, since no claim in scope
depends on float arithmetic. -/

inductive DpTag
  | tSTRING
  | tINTEGER
  | tFLOAT
deriving DecidableEq, Repr

/-- The scanning loop of KVList::deduceType (kvlist.cpp lines 252-282):
the loop breaks at the first character that is not a digit, declaring
the value a string when that character is not a dot and a float when it
is a dot; a value of digits only (including the empty value) is an
integer.  The branch of the source that would clear the floating flag on
a second dot is unreachable because the first dot already breaks. -/
def deduceTypeScan : List Char → DpTag
  | [] => .tINTEGER
  | c :: rest =>
      if ¬ c.isDigit ∧ c ≠ '.' then .tSTRING
      else if c = '.' then .tFLOAT
      else deduceTypeScan rest

/-- KVList::deduceType. -/
def KVList.deduceType (value : String) : DpTag :=
  deduceTypeScan value.data

/-- Modelled from the spec: a data point value is a string, an integer or
a float; the float is kept as the source text passed to strtod. -/
inductive DatapointValue
  | str (s : String)
  | int (i : Int)
  | flt (source : String)
deriving DecidableEq, Repr

/-- Modelled from the spec: the string form of a data point value, as
produced by the toString method of the external library; an integer
prints in decimal and the opaque float keeps its source text. -/
def DatapointValue.toStr : DatapointValue → String
  | .str s => "\"" ++ s ++ "\""
  | .int i => toString i
  | .flt s => s

/-- Modelled from the spec: toStringValue returns the raw string of a
string-typed data point value. -/
def DatapointValue.toStringValue : DatapointValue → String
  | .str s => s
  | .int i => toString i
  | .flt s => s

/-- Modelled from the spec: a data point is a (name, typed value) pair. -/
structure Datapoint where
  name : String
  value : DatapointValue
deriving DecidableEq, Repr

/-- Modelled from the spec: a reading is an asset-named bundle of data
points. -/
structure Reading where
  asset : String
  values : List Datapoint
deriving DecidableEq, Repr

/-- Modelled from the C library: strtol in base 10 on the digit-only
strings that deduceType classifies as integers; it yields 0 on the empty
string and clamps at LONG_MAX on overflow. -/
def strtolDigits (s : String) : Int :=
  min (Int.ofNat (s.data.foldl (fun acc c => acc * 10 + (c.toNat - 48)) 0)) (2 ^ 63 - 1)

/-- KVList::toReading (kvlist.cpp lines 173-213): one data point per
pair, typed by deduceType; an empty list yields the single sentinel data
point named __None__ so that the reading is never empty. -/
def KVList.toReading (k : KVList) (asset : String) : Reading :=
  let values := k.m_list.map (fun p =>
    match KVList.deduceType p.2 with
    | .tSTRING => Datapoint.mk p.1 (.str p.2)
    | .tINTEGER => Datapoint.mk p.1 (.int (strtolDigits p.2))
    | .tFLOAT => Datapoint.mk p.1 (.flt p.2))
  if values.length = 0 then ⟨asset, [⟨"__None__", .str "None"⟩]⟩ else ⟨asset, values⟩

/-- KVList::fromReading (kvlist.cpp lines 222-243): clear the list, then
append every data point whose name is not __None__, using the raw string
of a string-typed value and the printed form of any other value. -/
def KVList.fromReading : Option Reading → KVList
  | none => ⟨[]⟩
  | some reading =>
      ⟨(reading.values.filter (fun dp => dp.name ≠ "__None__")).map
        (fun dp =>
          (dp.name,
            match dp.value with
            | .str s => s
            | v => DatapointValue.toStr v))⟩

/-! ### Automation scripts (automation.cpp / automation.h)

Scripts are stored as JSON; the embedding uses a small JSON value type
mirroring the rapidjson values the source manipulates. -/

inductive JSON
  | str (s : String)
  | num (i : Int)
  | boolean (b : Bool)
  | null
  | arr (items : List JSON)
  | obj (members : List (String × JSON))

/-- rapidjson member access: the first member with the given name of an
object value. -/
def JSON.member : JSON → String → Option JSON
  | .obj ms, key => ms.lookup key
  | _, _ => none

/-- HasMember and IsString and GetString combined. -/
def JSON.getStringMember (j : JSON) (key : String) : Option String :=
  match j.member key with
  | some (.str s) => some s
  | _ => none

/-- HasMember and IsInt64 and GetInt64 combined. -/
def JSON.getIntMember (j : JSON) (key : String) : Option Int :=
  match j.member key with
  | some (.num i) => some i
  | _ => none

/-- A step condition: the members m_key, m_op and m_value of ScriptStep
(automation.h lines 55-72); a step with an empty m_key has no condition. -/
structure ScriptCondition where
  m_key : String
  m_op : String
  m_value : String
deriving DecidableEq, Repr

/-- The condition of a freshly constructed step: the three members are
default-constructed empty strings. -/
def defaultCond : ScriptCondition := ⟨"", "", ""⟩

/-- ScriptStep::evaluate (automation.cpp lines 506-524).  The source
tests m_op.compare("==") for truth: compare returns nonzero exactly when
the strings differ, so the first branch fires when m_op differs from
"==" and the second when m_op equals "==" (its compare against "!=" is
then nonzero); both branches return the same equality test and the final
return true is unreachable once a key is set. -/
def ScriptStep.evaluate (cond : ScriptCondition) (parameters : KVList) : Bool :=
  if cond.m_key = "" then true
  else
    let value := parameters.getValue cond.m_key
    if value = "" then false
    else if cond.m_op ≠ "==" then value == cond.m_value
    else if cond.m_op ≠ "!=" then value == cond.m_value
    else true

/-- The step variants of automation.h: WriteScriptStep,
OperationScriptStep, DelayScriptStep, ConfigScriptStep and
ScriptScriptStep, each carrying the condition members of the base
class. -/
inductive ScriptStep
  | write (m_service : String) (m_values : KVList) (cond : ScriptCondition)
  | operation (m_operation m_service : String) (m_parameters : KVList) (cond : ScriptCondition)
  | delay (m_delay : Int) (cond : ScriptCondition)
  | config (m_category m_name m_value : String) (cond : ScriptCondition)
  | subscript (m_name : String) (cond : ScriptCondition)
deriving DecidableEq, Repr

/-- The member iteration of Script::parseStep over a values or
parameters object: every member value is read with GetString, which
asserts on a non-string value; none models that assertion and the
non-object case. -/
def kvOfMembers : List (String × JSON) → Option (List (String × String))
  | [] => some []
  | (k, .str s) :: rest => (kvOfMembers rest).map (fun r => (k, s) :: r)
  | _ :: _ => none

def kvOfObject : JSON → Option KVList
  | .obj ms => (kvOfMembers ms).map KVList.mk
  | _ => none

/-- Script::parseStep (automation.cpp lines 320-461).  Every constructed
step carries the default empty condition: neither parseStep nor
Script::load calls Script::addCondition, so conditions present in the
stored JSON are never attached to a step.  none is the NULL return of
the source. -/
def Script.parseStep (type : String) (step : JSON) : Option ScriptStep :=
  if type = "write" then
    match step.getStringMember "service" with
    | none => none
    | some service =>
      match step.member "values" with
      | some values@(.obj _) =>
        match kvOfObject values with
        | some kv => some (.write service kv defaultCond)
        | none => none
      | _ => none
  else if type = "operation" then
    match step.getStringMember "operation" with
    | none => none
    | some op =>
      match step.getStringMember "service" with
      | none => none
      | some service =>
        match step.member "parameters" with
        | some params@(.obj _) =>
          match kvOfObject params with
          | some kv => some (.operation op service kv defaultCond)
          | none => none
        | _ => some (.operation op service ⟨[]⟩ defaultCond)
  else if type = "delay" then
    match step.getIntMember "duration" with
    | some d => some (.delay d defaultCond)
    | none => none
  else if type = "config" then
    match step.getStringMember "category" with
    | none => none
    | some category =>
      match step.getStringMember "name" with
      | none => none
      | some name =>
        match step.getStringMember "value" with
        | none => none
        | some value => some (.config category name value defaultCond)
  else if type = "script" then
    match step.getStringMember "name" with
    | some name => some (.subscript name defaultCond)
    | none => none
  else none

/-- Script::addCondition (automation.cpp lines 470-496): read the
optional condition object of a step.  none is a formatting error (the
false return); some none means the step has no condition; some (some c)
is a parsed condition.  Script::load never calls this function. -/
def Script.addCondition (value : JSON) : Option (Option ScriptCondition) :=
  match value.member "condition" with
  | none => some none
  | some cond =>
    match cond with
    | .obj _ =>
      let key := (cond.getStringMember "key").getD ""
      let op := (cond.getStringMember "condition").getD ""
      let v := (cond.getStringMember "value").getD ""
      if key = "" ∨ v = "" ∨ op = "" then none
      else some (some ⟨key, op, v⟩)
    | _ => none

/-- Insertion into the ordered map m_steps, keeping keys ascending as
std::map does. -/
def insortStep (order : Int) (s : ScriptStep) : List (Int × ScriptStep) → List (Int × ScriptStep)
  | [] => [(order, s)]
  | p :: rest => if order < p.1 then (order, s) :: p :: rest else p :: insortStep order s rest

/-- Script::addStep (automation.cpp lines 299-311): reject a duplicate
order, otherwise record the step under its order in m_steps. -/
def Script.addStep (steps : List (Int × ScriptStep)) (order : Int) (s : ScriptStep) :
    Option (List (Int × ScriptStep)) :=
  if (steps.lookup order).isSome then none
  else some (insortStep order s steps)

/-- The inner loop of Script::load over the members of one array item
(automation.cpp lines 219-267): each member is one step, keyed by its
type; the step value must be an object with an integer order. -/
def loadMembers : List (String × JSON) → List (Int × ScriptStep) → Option (List (Int × ScriptStep))
  | [], steps => some steps
  | (type, step) :: rest, steps =>
    match step with
    | .obj _ =>
      match step.getIntMember "order" with
      | some order =>
        match Script.parseStep type step with
        | some s =>
          match Script.addStep steps order s with
          | some steps2 => loadMembers rest steps2
          | none => none
        | none => none
      | none => none
    | _ => none

/-- The outer loop of Script::load over the steps array (automation.cpp
lines 215-277): every item must be an object. -/
def loadItems : List JSON → List (Int × ScriptStep) → Option (List (Int × ScriptStep))
  | [], steps => some steps
  | item :: rest, steps =>
    match item with
    | .obj ms =>
      match loadMembers ms steps with
      | some steps2 => loadItems rest steps2
      | none => none
    | _ => none

/-- The step-parsing part of Script::load (automation.cpp lines
213-285): the steps document must be an array; conditions are never
attached because load does not call Script::addCondition. -/
def Script.loadSteps : JSON → Option (List (Int × ScriptStep))
  | .arr items => loadItems items []
  | _ => none

/-- A delivery to a downstream service through sendToService, recorded
as (service, url path, payload). -/
structure Delivery where
  service : String
  urlPath : String
  payload : String
deriving DecidableEq, Repr

/-- Execution of one script step (automation.cpp lines 533-627 and
automation.h lines 108-123).  The result is the boolean the step
returns together with the deliveries it made; none models divergence of
the macro substitution.  DelayScriptStep::execute and the executing
branch of ConfigScriptStep::execute have no return statement, so the
boolean they yield is unspecified and modelled by the undefRet
parameter.  Sub-script execution reaches back into storage and is
modelled by the runSub oracle.  sendToService is modelled as a recorded
delivery that the downstream service accepts. -/
def ScriptStep.executeStep (undefRet : Bool)
    (runSub : String → KVList → Option (Bool × List Delivery))
    (parameters : KVList) : ScriptStep → Option (Bool × List Delivery)
  | .write service values cond =>
    if ¬ ScriptStep.evaluate cond parameters then some (true, [])
    else
      match KVList.substitute values parameters with
      | some vals =>
        some (true, [⟨service, "/fledge/south/setpoint",
          "\x7b \"values\" : " ++ vals.toJSON ++ " \x7d"⟩])
      | none => none
  | .operation op service params cond =>
    if ¬ ScriptStep.evaluate cond parameters then some (true, [])
    else if params.m_list.length > 0 then
      match KVList.substitute params parameters with
      | some ps =>
        some (true, [⟨service, "/fledge/south/operation",
          "\x7b \"operation\" : \"" ++ op ++ "\", " ++ "\"parameters\" : " ++ ps.toJSON ++ " \x7d"⟩])
      | none => none
    else
      some (true, [⟨service, "/fledge/south/operation",
        "\x7b \"operation\" : \"" ++ op ++ "\", " ++ " \x7d"⟩])
  | .delay _ _ => some (undefRet, [])
  | .config _ _ _ cond =>
    if ¬ ScriptStep.evaluate cond parameters then some (true, [])
    else some (undefRet, [])
  | .subscript name cond =>
    if ¬ ScriptStep.evaluate cond parameters then some (true, [])
    else runSub name parameters

/-- The step loop of Script::execute (automation.cpp lines 34-74):
steps run in ascending order and the first false return aborts the
script. -/
def Script.run (undefRet : Bool)
    (runSub : String → KVList → Option (Bool × List Delivery))
    (parameters : KVList) : List (Int × ScriptStep) → Option (Bool × List Delivery)
  | [] => some (true, [])
  | (_, s) :: rest =>
    match ScriptStep.executeStep undefRet runSub parameters s with
    | none => none
    | some (res, ds) =>
      if ¬ res then some (false, ds)
      else
        match Script.run undefRet runSub parameters rest with
        | none => none
        | some (res2, ds2) => some (res2, ds ++ ds2)

/-! ### ACL validation (Script::validateACL, automation.cpp lines 639-860)

The claim in scope concerns the evaluation of the services array of a
loaded ACL row; an array item is modelled as its list of members when it
is an object (member values are read with GetString) and as none
otherwise. -/

/-- The scan of one object item of the services array (automation.cpp
lines 715-738): both matched flags are reassigned for every member and a
break leaves only the inner loop.  The state is the pair
(matchedServiceName, matchedServiceType). -/
def serviceItemScan (sourceName sourceType : String) :
    List (String × String) → Bool × Bool → Bool × Bool
  | [], st => st
  | (key, value) :: rest, st =>
    let mN := key == "name" && value == sourceName
    if mN then (mN, st.2)
    else
      let mT := key == "type" && value == sourceType
      if mT then (mN, mT)
      else serviceItemScan sourceName sourceType rest (mN, mT)

/-- The services-array acceptance of Script::validateACL (automation.cpp
lines 704-749): an empty array presets both flags true; the loop then
reassigns the flags item by item, skipping non-object items; the caller
is accepted when either flag is true after the last item. -/
def validateACLServices (sourceName sourceType : String)
    (items : List (Option (List (String × String)))) : Bool :=
  let st0 : Bool × Bool := if items.length = 0 then (true, true) else (false, false)
  let st := items.foldl (fun st item =>
    match item with
    | none => st
    | some ms => serviceItemScan sourceName sourceType ms st) st0
  st.1 || st.2

/-! ### Pipeline endpoints and the pipeline manager
(pipeline_manager.h, pipeline_manager.cpp, controlpipeline.h,
controlpipeline.cpp) -/

/-- PipelineEndpoint::EndpointType (pipeline_manager.h lines 36-46). -/
inductive EndpointType
  | undefined
  | any
  | service
  | api
  | schedNotice
  | schedule
  | script
  | broadcast
  | asset
deriving DecidableEq, Repr

/-- PipelineEndpoint: an endpoint type with its name; the constructor
without a name leaves the name empty. -/
structure PipelineEndpoint where
  m_type : EndpointType
  m_name : String
deriving DecidableEq, Repr

/-- The nameless endpoint PipelineEndpoint(EndpointAny). -/
def anyEndpoint : PipelineEndpoint := ⟨.any, ""⟩

/-- PipelineEndpoint::match (pipeline_manager.h lines 88-93): the
receiver e matches the candidate c when e is of type Any, or the
candidate has the same type and either no name or the same name. -/
def PipelineEndpoint.matchCand (e c : PipelineEndpoint) : Bool :=
  e.m_type == .any || (c.m_type == e.m_type && (c.m_name == "" || c.m_name == e.m_name))

/-- ControlPipeline (controlpipeline.h lines 81-178): name, enable and
exclusive flags, the two endpoints and the ordered filter list. -/
structure ControlPipeline where
  m_name : String
  m_enable : Bool
  m_exclusive : Bool
  m_source : PipelineEndpoint
  m_dest : PipelineEndpoint
  m_pipeline : List String
deriving DecidableEq, Repr

/-- ControlPipeline::match (controlpipeline.h lines 136-139): match the
requested source and destination against the stored endpoints.  The
enable flag plays no part. -/
def ControlPipeline.matchEnds (p : ControlPipeline) (source dest : PipelineEndpoint) : Bool :=
  PipelineEndpoint.matchCand source p.m_source && PipelineEndpoint.matchCand dest p.m_dest

/-- ControlPipeline::enable (controlpipeline.h lines 91-94). -/
def ControlPipeline.setEnable (b : Bool) (p : ControlPipeline) : ControlPipeline :=
  { p with m_enable := b }

/-- One pass of ControlPipelineManager::findPipeline: the loop over the
pipelines map (modelled as a list in map order) returning the first
pipeline matching the given pair. -/
def findPass (pipelines : List ControlPipeline) (source dest : PipelineEndpoint) :
    Option ControlPipeline :=
  match pipelines with
  | [] => none
  | p :: rest => if p.matchEnds source dest then some p else findPass rest source dest

/-- ControlPipelineManager::findPipeline (pipeline_manager.cpp lines
164-217): four passes over the pipelines, first hit winning - the exact
pair, then Any source with the exact destination, then the exact source
with Any destination, then Any with Any - and NULL when no pass hits. -/
def findPipeline (pipelines : List ControlPipeline) (source dest : PipelineEndpoint) :
    Option ControlPipeline :=
  (findPass pipelines source dest).orElse fun _ =>
    (findPass pipelines anyEndpoint dest).orElse fun _ =>
      (findPass pipelines source anyEndpoint).orElse fun _ =>
        findPass pipelines anyEndpoint anyEndpoint

/-- Modelled from the spec, for comparison with the source embedding:
an endpoint E matches a candidate C iff E.type is Any, or C.type equals
E.type and C.name is empty or C.name equals E.name. -/
def SpecEndpointMatches (E C : PipelineEndpoint) : Prop :=
  E.m_type = .any ∨ (C.m_type = E.m_type ∧ (C.m_name = "" ∨ C.m_name = E.m_name))

instance (E C : PipelineEndpoint) : Decidable (SpecEndpointMatches E C) := by
  unfold SpecEndpointMatches; infer_instance

/-- Modelled from the spec, for comparison with the source embedding:
findPipeline as four passes with first hit winning, each pass taking the
first pipeline whose endpoints are matched under the spec rule. -/
def findPipelineSpec (pipelines : List ControlPipeline) (source dest : PipelineEndpoint) :
    Option ControlPipeline :=
  [(source, dest), (anyEndpoint, dest), (source, anyEndpoint), (anyEndpoint, anyEndpoint)].findSome?
    (fun pass => pipelines.find? (fun p =>
      decide (SpecEndpointMatches pass.1 p.m_source ∧ SpecEndpointMatches pass.2 p.m_dest)))

/-- PipelineExecutionContext as handed out by a pipeline: the pipeline
name and the filter names the context was created with
(pipeline_execution.h; the plugin chain itself is external). -/
structure PipelineExecutionContext where
  m_name : String
  m_filters : List String
deriving DecidableEq, Repr

/-- ContextEndpoints (controlpipeline.h lines 23-76): the endpoint pair
an exclusive context serves. -/
structure ContextEndpoints where
  m_source : PipelineEndpoint
  m_dest : PipelineEndpoint
  context : PipelineExecutionContext
deriving DecidableEq, Repr

/-- ContextEndpoints::operator== (controlpipeline.h lines 67-70): the
comparison uses the wildcard endpoint match, not plain equality. -/
def ContextEndpoints.eqEnds (a : ContextEndpoints) (source dest : PipelineEndpoint) : Bool :=
  PipelineEndpoint.matchCand a.m_source source && PipelineEndpoint.matchCand a.m_dest dest

/-- The mutable context table of one pipeline: the shared context and
the exclusive per-pair contexts. -/
structure ContextState where
  m_sharedContext : Option PipelineExecutionContext
  m_contexts : List ContextEndpoints
deriving DecidableEq, Repr

/-- ControlPipeline::getExecutionContext (controlpipeline.cpp lines
46-79): without the exclusive flag, lazily create and return the single
shared context; otherwise return the context of the first stored pair
matching (source, dest), creating and appending a fresh context when
none does.  The enable flag is not consulted. -/
def ControlPipeline.getExecutionContext (p : ControlPipeline) (st : ContextState)
    (source dest : PipelineEndpoint) : PipelineExecutionContext × ContextState :=
  if ¬ p.m_exclusive then
    match st.m_sharedContext with
    | some c => (c, st)
    | none =>
      let c : PipelineExecutionContext := ⟨p.m_name, p.m_pipeline⟩
      (c, { st with m_sharedContext := some c })
  else
    match st.m_contexts.find? (fun ce => ce.eqEnds source dest) with
    | some ce => (ce.context, st)
    | none =>
      let c : PipelineExecutionContext := ⟨p.m_name, p.m_pipeline⟩
      (c, { st with m_contexts := st.m_contexts ++ [⟨source, dest, c⟩] })

/-! ### Removing a filter from an execution context
(PipelineExecutionContext::removeFilter, pipeline_execution.cpp lines
388-413)

The context state is the parallel vectors m_filters and m_plugins,
plugins identified by numbers standing for the C++ pointers.  Every
m_plugins subscript of the source is modelled through List.get?, an
out-of-range subscript (undefined behaviour on a std::vector) surfacing
as an error. -/

structure RFState where
  m_filters : List String
  m_plugins : List Nat
deriving DecidableEq, Repr

/-- The observable plugin events of removeFilter, in program order. -/
inductive RFEvent
  | shutdown (plugin : Nat)
  | unregister (category : String) (plugin : Nat)
  | free (plugin : Nat)
  | initAsTail (plugin : Nat)
deriving DecidableEq, Repr

/-- PipelineExecutionContext::removeFilter (pipeline_execution.cpp lines
388-413), statement by statement: find the filter and erase it from
m_filters (index is the distance of the find result from begin, the
vector size when the filter is absent); shut down and unregister
m_plugins[index]; erase position index of m_plugins; delete
m_plugins[index] - after the erasure, so the subscript names the next
plugin; when index is not below the new size, shut down and re-init
m_plugins[index - 1] as the tail. -/
def removeFilter (st : RFState) (filter : String) : Except String (RFState × List RFEvent) := do
  let found := st.m_filters.indexOf? filter
  let index := match found with
    | some i => i
    | none => st.m_filters.length
  let filters := if found.isSome then st.m_filters.eraseIdx index else st.m_filters
  let shut ← match st.m_plugins.get? index with
    | some q => Except.ok q
    | none => Except.error "subscript out of range: m_plugins[index] before erase"
  let evs := [RFEvent.shutdown shut, RFEvent.unregister filter shut]
  let plugins := st.m_plugins.eraseIdx index
  let freed ← match plugins.get? index with
    | some q => Except.ok q
    | none => Except.error "subscript out of range: m_plugins[index] after erase"
  let evs := evs ++ [RFEvent.free freed]
  if index ≥ plugins.length then
    if index = 0 then
      Except.error "subscript out of range: m_plugins[index - 1]"
    else
      match plugins.get? (index - 1) with
      | some prev =>
        Except.ok (⟨filters, plugins⟩, evs ++ [RFEvent.shutdown prev, RFEvent.initAsTail prev])
      | none => Except.error "subscript out of range: m_plugins[index - 1]"
  else
    Except.ok (⟨filters, plugins⟩, evs)

/-! ### Control requests (controlrequest.cpp / controlrequest.h)

The plugin chain held by an execution context is external code; its
behaviour is modelled by a chain parameter mapping a reading to the
optional reading the chain returns (none when the pipeline drops the
request). -/

/-- WriteControlRequest::filter (controlrequest.cpp lines 227-249): find
a pipeline for (Any, destination); when one exists, convert m_values to
a reading and call the context filter on it - the source discards the
returned pointer and reads m_values back from the original reading, so
the chain result never reaches the request. -/
def WriteControlRequest.filterValues (pipelines : List ControlPipeline)
    (chain : Reading → Option Reading) (dest : PipelineEndpoint) (values : KVList) : KVList :=
  match findPipeline pipelines anyEndpoint dest with
  | none => values
  | some _ =>
    let reading := values.toReading "reading"
    let _ := chain reading
    KVList.fromReading (some reading)

/-- ControlOperationRequest::filter (controlrequest.cpp lines 266-276):
find a pipeline for (Any, destination) and return; no execution context
is obtained, no reading is built and m_parameters is untouched. -/
def ControlOperationRequest.filterParams (pipelines : List ControlPipeline)
    (dest : PipelineEndpoint) (params : KVList) : KVList :=
  match findPipeline pipelines anyEndpoint dest with
  | none => params
  | some _ => params

/-- ControlWriteServiceRequest::execute (controlrequest.cpp lines
26-41): filter, then send the setpoint payload to the named service;
delivery is unconditional. -/
def ControlWriteServiceRequest.executeReq (pipelines : List ControlPipeline)
    (chain : Reading → Option Reading) (m_service : String) (values : KVList) : List Delivery :=
  let vals := WriteControlRequest.filterValues pipelines chain ⟨.service, m_service⟩ values
  [⟨m_service, "/fledge/south/setpoint", "\x7b \"values\" : " ++ vals.toJSON ++ " \x7d"⟩]

/-- ControlOperationServiceRequest::execute (controlrequest.cpp lines
125-144): filter (a no-op), then send the operation payload to the
named service; delivery is unconditional. -/
def ControlOperationServiceRequest.executeReq (pipelines : List ControlPipeline)
    (m_operation m_service : String) (params : KVList) : List Delivery :=
  let ps := ControlOperationRequest.filterParams pipelines ⟨.service, m_service⟩ params
  let payload :=
    if ps.m_list.length > 0 then
      "\x7b \"operation\" : \"" ++ m_operation ++ "\", " ++ "\"parameters\" : " ++ ps.toJSON ++ " \x7d"
    else
      "\x7b \"operation\" : \"" ++ m_operation ++ "\", " ++ " \x7d"
  [⟨m_service, "/fledge/south/operation", payload⟩]

/-! ### The write entry point (DispatcherApi::write, dispatcher_api.cpp
lines 127-251)

The handler is modelled after JSON parsing with the caller
unauthenticated (the claim in scope concerns body handling): the input
none is a body that fails to parse.  The result is the ordered list of
HTTP responses written on the response stream and the list of requests
handed to queueRequest. -/

/-- One response written by respond: the status code and the message of
the payload body (the body itself is \x7b "message" : <message> \x7d). -/
structure HttpResponse where
  status : Nat
  message : String
deriving DecidableEq, Repr

/-- The control request variants DispatcherApi::write can queue; the
caller hint carried by addCaller is irrelevant to the claims and
omitted. -/
inductive QueuedWrite
  | service (name : String) (values : KVList)
  | asset (name : String) (values : KVList)
  | script (name : String) (values : KVList)
  | broadcast (values : KVList)
deriving DecidableEq, Repr

/-- The KVList constructor on doc["write"] (kvlist.cpp lines 21-44):
object members must all be strings; the error is the what() text of the
runtime_error the constructor throws. -/
def kvListCtor : JSON → Except String KVList
  | .obj ms => kvCtorMembers ms
  | _ => .error "Expected JSON value to be an object"
where
  kvCtorMembers : List (String × JSON) → Except String KVList
    | [] => .ok ⟨[]⟩
    | (k, .str s) :: rest =>
        (kvCtorMembers rest).map (fun kv => ⟨(k, s) :: kv.m_list⟩)
    | _ :: _ => .error "Value in key/value pair should be a string"

/-- The tail of DispatcherApi::write from the write-member check on
(dispatcher_api.cpp lines 192-250).  The Unsupported destination branch
and the KVList constructor exception respond 400 without returning, so
they fall through to the closing 202 Request queued response; a body
without a write object skips the whole block and reaches the 202
directly. -/
def writeHandlerTail (doc : JSON) (destination name : String) :
    List HttpResponse × List QueuedWrite :=
  match doc.member "write" with
  | some w@(.obj _) =>
    match kvListCtor w with
    | .error msg => ([⟨400, "Exception: " ++ msg⟩, ⟨202, "Request queued"⟩], [])
    | .ok values =>
      if destination = "service" then
        ([⟨202, "Request queued"⟩], [.service name values])
      else if destination = "asset" then
        ([⟨202, "Request queued"⟩], [.asset name values])
      else if destination = "script" then
        ([⟨202, "Request queued"⟩], [.script name values])
      else if destination = "broadcast" then
        ([⟨202, "Request queued"⟩], [.broadcast values])
      else
        ([⟨400, "Unsupported destination for write request"⟩, ⟨202, "Request queued"⟩], [])
  | _ => ([⟨202, "Request queued"⟩], [])

/-- DispatcherApi::write (dispatcher_api.cpp lines 127-251): the
destination member is required; a missing name is an error only for the
script, service and asset destinations (each of those branches responds
400 and returns); a parse failure responds 400 without returning and
falls through to the closing 202. -/
def dispatcherWrite (body : Option JSON) : List HttpResponse × List QueuedWrite :=
  match body with
  | none => ([⟨400, "Failed to parse request payload"⟩, ⟨202, "Request queued"⟩], [])
  | some doc =>
    match doc.getStringMember "destination" with
    | none => ([⟨400, "Missing 'destination' in write payload"⟩], [])
    | some destination =>
      match doc.getStringMember "name" with
      | none =>
        if destination = "script" then
          ([⟨400, "Missing script name in write payload"⟩], [])
        else if destination = "service" then
          ([⟨400, "Missing service name in write payload"⟩], [])
        else if destination = "asset" then
          ([⟨400, "Missing asset name in write payload"⟩], [])
        else writeHandlerTail doc destination ""
      | some name => writeHandlerTail doc destination name

/-! ### Concrete inputs used by the theorems -/

/-- The scenario-4 script of the spec as the steps array of the
control_script row: a conditional write, a delay and an unconditional
write. -/
def scenario4Doc : JSON :=
  .arr [
    .obj [("write", .obj [("order", .num 1), ("service", .str "svc"),
      ("values", .obj [("x", .str "$v$")]),
      ("condition", .obj [("key", .str "mode"), ("condition", .str "=="), ("value", .str "on")])])],
    .obj [("delay", .obj [("order", .num 2), ("duration", .num 100)])],
    .obj [("write", .obj [("order", .num 3), ("service", .str "svc"),
      ("values", .obj [("x", .str "0")])])]]

/-- The scenario-4 re-execution parameters: mode off, v 9. -/
def scenario4Params : KVList := ⟨[("mode", "off"), ("v", "9")]⟩

/-- The loaded form of scenario4Doc: no step carries a condition. -/
def scenario4Steps : List (Int × ScriptStep) :=
  [(1, .write "svc" ⟨[("x", "$v$")]⟩ defaultCond),
   (2, .delay 100 defaultCond),
   (3, .write "svc" ⟨[("x", "0")]⟩ defaultCond)]

/-- An Any-to-Any control pipeline with one filter, used as the matching
pipeline of concrete runs. -/
def testPipeline : ControlPipeline := ⟨"cp", true, false, anyEndpoint, anyEndpoint, ["F1"]⟩

/-- A plugin chain that drops every control request. -/
def dropAllChain : Reading → Option Reading := fun _ => none

/-! ### Theorems for the claims -/

/-- C3: for a step condition with operator != the source evaluates to the
equality of the parameter value with the literal, not its negation: with
parameters mapping mode to off and the condition (mode, !=, on) the
evaluation returns false although the values differ, so the claimed
"true iff not equal" fails; the operator == and the absent-key cases
behave as claimed. -/
theorem C3_notEqual_evaluates_as_equal :
    ScriptStep.evaluate ⟨"mode", "!=", "on"⟩ ⟨[("mode", "off")]⟩ = false ∧
    KVList.getValue ⟨[("mode", "off")]⟩ "mode" ≠ "on" ∧
    ScriptStep.evaluate ⟨"mode", "==", "on"⟩ ⟨[("mode", "on")]⟩ = true ∧
    ScriptStep.evaluate ⟨"mode", "==", "on"⟩ ⟨[("other", "on")]⟩ = false := by
  refine ⟨rfl, ?_, rfl, rfl⟩
  decide

/-- C2: a later entry of the services array overwrites the match found by
an earlier one, so acceptance is not "some entry matches": with caller
name X, the array with entries naming X then Z denies, while the same
entries in the other order accept. -/
theorem C2_later_services_entry_overwrites_match :
    validateACLServices "X" "T" [some [("name", "X")], some [("name", "Z")]] = false ∧
    validateACLServices "X" "T" [some [("name", "Z")], some [("name", "X")]] = true ∧
    validateACLServices "X" "T" [] = true := by
  refine ⟨rfl, rfl, rfl⟩

/-- C9: removeFilter on the context with filters F1, F2 (plugins 1, 2)
and the name F1 shuts down plugin 1 but frees plugin 2, the plugin of
the remaining filter, because the delete subscripts the vector after the
erasure; removing the last filter F2 and removing an absent filter both
subscript m_plugins out of range. -/
theorem C9_removeFilter_frees_wrong_plugin :
    removeFilter ⟨["F1", "F2"], [1, 2]⟩ "F1"
      = .ok (⟨["F2"], [2]⟩, [.shutdown 1, .unregister "F1" 1, .free 2]) ∧
    removeFilter ⟨["F1", "F2"], [1, 2]⟩ "F2"
      = .error "subscript out of range: m_plugins[index] after erase" ∧
    removeFilter ⟨["F1"], [1]⟩ "missing"
      = .error "subscript out of range: m_plugins[index] before erase" := by
  refine ⟨rfl, rfl, rfl⟩

/-- C8: a body that fails to parse is answered with the 400 response and
then, because that branch does not return, also with the 202 Request
queued response; a body whose write object is missing is answered only
202 Request queued with nothing enqueued; an unsupported destination is
answered 400 and then 202.  The claimed single 400 response holds only
for the missing-destination and missing-name branches. -/
theorem C8_write_error_paths :
    dispatcherWrite none
      = ([⟨400, "Failed to parse request payload"⟩, ⟨202, "Request queued"⟩], []) ∧
    dispatcherWrite (some (.obj [("destination", .str "broadcast")]))
      = ([⟨202, "Request queued"⟩], []) ∧
    dispatcherWrite (some (.obj [("destination", .str "query"), ("name", .str "S"),
        ("write", .obj [("x", .str "1")])]))
      = ([⟨400, "Unsupported destination for write request"⟩, ⟨202, "Request queued"⟩], []) ∧
    dispatcherWrite (some (.obj [("destination", .str "service"), ("name", .str "S"),
        ("write", .obj [("x", .str "1")])]))
      = ([⟨202, "Request queued"⟩], [.service "S" ⟨[("x", "1")]⟩]) ∧
    dispatcherWrite (some (.obj []))
      = ([⟨400, "Missing 'destination' in write payload"⟩], []) := by
  refine ⟨rfl, rfl, rfl, rfl, rfl⟩

/-- C4: loading the scenario-4 script attaches no condition to any step
(Script::load never calls Script::addCondition), so re-execution with
mode off still delivers the step-1 payload with x substituted to 9 as
the first delivery, whatever boolean the return-less delay step happens
to yield; the claim that step 1 produces no delivery fails. -/
theorem C4_step_condition_ignored_on_load :
    Script.loadSteps scenario4Doc = some scenario4Steps ∧
    ∀ (undefRet : Bool) (runSub : String → KVList → Option (Bool × List Delivery)),
      ∃ res more,
        Script.run undefRet runSub scenario4Params scenario4Steps
          = some (res, ⟨"svc", "/fledge/south/setpoint",
              "\x7b \"values\" : \x7b \"x\" :\"9\" \x7d \x7d"⟩ :: more) := by
  refine ⟨rfl, ?_⟩
  intro undefRet runSub
  cases undefRet with
  | false => exact ⟨false, [], rfl⟩
  | true =>
      exact ⟨true, [⟨"svc", "/fledge/south/setpoint",
        "\x7b \"values\" : \x7b \"x\" :\"0\" \x7d \x7d"⟩], rfl⟩

/-- C1: the write request still delivers when the pipeline drops the
request (the chain returns none), the values delivered being the
original ones for every chain because the source discards the filter
result; and the operation request filter is the identity on the
parameters for every pipeline list, so no operation request is ever
filtered or dropped. -/
theorem C1_filter_result_discarded :
    ControlWriteServiceRequest.executeReq [testPipeline] dropAllChain "S" ⟨[("x", "on")]⟩
      = [⟨"S", "/fledge/south/setpoint", "\x7b \"values\" : \x7b \"x\" :\"on\" \x7d \x7d"⟩] ∧
    (∀ chain : Reading → Option Reading,
      WriteControlRequest.filterValues [testPipeline] chain ⟨.service, "S"⟩ ⟨[("x", "on")]⟩
        = ⟨[("x", "on")]⟩) ∧
    (∀ (pipelines : List ControlPipeline) (dest : PipelineEndpoint) (params : KVList),
      ControlOperationRequest.filterParams pipelines dest params = params) := by
  refine ⟨rfl, fun chain => rfl, fun pipelines dest params => ?_⟩
  unfold ControlOperationRequest.filterParams
  cases findPipeline pipelines anyEndpoint dest <;> rfl

/-- C5: the substitution loop never terminates on a value with an
unterminated macro: on abc$def the unterminated branch sets p1 to
npos + 1, which wraps to 0 in size_t arithmetic, so the loop rescans the
value from the start forever and exhausts every amount of fuel; the
claimed termination with the remainder copied verbatim fails. -/
theorem C5_substitute_diverges_on_unterminated_macro :
    ∀ (fuel : Nat) (rval : String),
      substituteLoop ⟨[("def", "x")]⟩ "abc$def" fuel 0 rval = none := by
  intro fuel
  induction fuel with
  | zero => intro rval; rfl
  | succ n ih =>
      intro rval
      have hstep : substituteLoop ⟨[("def", "x")]⟩ "abc$def" (n + 1) 0 rval
          = substituteLoop ⟨[("def", "x")]⟩ "abc$def" n 0 (rval ++ "abc") := rfl
      rw [hstep]
      exact ih (rval ++ "abc")

/-- The boolean endpoint match of the source agrees with the matching
rule as the spec words it. -/
theorem matchCand_iff (e c : PipelineEndpoint) :
    PipelineEndpoint.matchCand e c = true ↔ SpecEndpointMatches e c := by
  simp [PipelineEndpoint.matchCand, SpecEndpointMatches]

/-- The boolean endpoint match of the source is the decision procedure
of the spec matching rule. -/
theorem matchCand_eq_decide (e c : PipelineEndpoint) :
    PipelineEndpoint.matchCand e c = decide (SpecEndpointMatches e c) := by
  by_cases h : SpecEndpointMatches e c
  · rw [decide_eq_true h, (matchCand_iff e c).2 h]
  · rw [decide_eq_false h]
    exact Bool.eq_false_iff.mpr (fun hm => h ((matchCand_iff e c).1 hm))

/-- One pass under the spec matching rule is one pass of the source. -/
theorem findPass_spec (l : List ControlPipeline) (s d : PipelineEndpoint) :
    (l.find? fun p =>
        decide (SpecEndpointMatches s p.m_source ∧ SpecEndpointMatches d p.m_dest))
      = findPass l s d := by
  induction l with
  | nil => rfl
  | cons q rest ih =>
      have hq : decide (SpecEndpointMatches s q.m_source ∧ SpecEndpointMatches d q.m_dest)
          = ControlPipeline.matchEnds q s d := by
        rw [Bool.decide_and, ← matchCand_eq_decide, ← matchCand_eq_decide]
        rfl
      simp only [List.find?, findPass, hq]
      rcases hm : ControlPipeline.matchEnds q s d with _ | _
      · simpa using ih
      · simp

/-- A pass returns none exactly when no pipeline of the list matches the
pair. -/
theorem findPass_eq_none_iff (l : List ControlPipeline) (s d : PipelineEndpoint) :
    findPass l s d = none ↔ ∀ p ∈ l, ¬ p.matchEnds s d = true := by
  induction l with
  | nil => simp [findPass]
  | cons q rest ih =>
      by_cases hm : ControlPipeline.matchEnds q s d = true
      · simp [findPass, hm]
      · simp [findPass, hm, ih]

/-- C6: the four-pass lookup of the source coincides with the spec
rendering of the precedence rule (four passes with first hit winning
under the spec matching rule), and it returns none exactly when no
pipeline matches under any of the four passes. -/
theorem C6_findPipeline_matches_spec (l : List ControlPipeline) (s d : PipelineEndpoint) :
    findPipeline l s d = findPipelineSpec l s d ∧
    (findPipeline l s d = none ↔
      ∀ p ∈ l, ¬ (p.matchEnds s d = true ∨ p.matchEnds anyEndpoint d = true ∨
        p.matchEnds s anyEndpoint = true ∨ p.matchEnds anyEndpoint anyEndpoint = true)) := by
  constructor
  · unfold findPipelineSpec findPipeline
    simp only [List.findSome?]
    rw [findPass_spec, findPass_spec, findPass_spec, findPass_spec]
    rcases findPass l s d with _ | p1 <;>
      rcases findPass l anyEndpoint d with _ | p2 <;>
        rcases findPass l s anyEndpoint with _ | p3 <;>
          rcases findPass l anyEndpoint anyEndpoint with _ | p4 <;>
            simp [Option.orElse]
  · have hchain : (findPipeline l s d = none) ↔
        (findPass l s d = none ∧ findPass l anyEndpoint d = none ∧
         findPass l s anyEndpoint = none ∧ findPass l anyEndpoint anyEndpoint = none) := by
      unfold findPipeline
      rcases findPass l s d with _ | p1 <;>
        rcases findPass l anyEndpoint d with _ | p2 <;>
          rcases findPass l s anyEndpoint with _ | p3 <;>
            rcases findPass l anyEndpoint anyEndpoint with _ | p4 <;>
              simp [Option.orElse]
    rw [hchain, findPass_eq_none_iff, findPass_eq_none_iff, findPass_eq_none_iff,
      findPass_eq_none_iff]
    constructor
    · rintro ⟨h1, h2, h3, h4⟩ p hp (h | h | h | h)
      exacts [h1 p hp h, h2 p hp h, h3 p hp h, h4 p hp h]
    · intro h
      exact ⟨fun p hp hm => h p hp (Or.inl hm),
        fun p hp hm => h p hp (Or.inr (Or.inl hm)),
        fun p hp hm => h p hp (Or.inr (Or.inr (Or.inl hm))),
        fun p hp hm => h p hp (Or.inr (Or.inr (Or.inr hm)))⟩

/-- Round trip of the toReading data-point construction and the
fromReading extraction over a pair list whose keys avoid the sentinel
and whose values deduce to strings. -/
theorem roundTripAux (l : List (String × String))
    (h : ∀ p ∈ l, p.1 ≠ "__None__" ∧ KVList.deduceType p.2 = DpTag.tSTRING) :
    ((l.map fun p =>
        match KVList.deduceType p.2 with
        | .tSTRING => Datapoint.mk p.1 (.str p.2)
        | .tINTEGER => Datapoint.mk p.1 (.int (strtolDigits p.2))
        | .tFLOAT => Datapoint.mk p.1 (.flt p.2)).filter
      (fun dp => dp.name ≠ "__None__")).map
      (fun dp => (dp.name,
        match dp.value with
        | .str s => s
        | v => DatapointValue.toStr v)) = l := by
  induction l with
  | nil => rfl
  | cons p rest ih =>
      obtain ⟨hn, ht⟩ := h p (List.mem_cons_self p rest)
      have hrest := ih (fun q hq => h q (List.mem_cons_of_mem p hq))
      simp only [List.map_cons, ht, List.filter_cons]
      rw [if_pos (by simp [hn]), List.map_cons, hrest]

/-- C7 (amended): fromReading after toReading is the identity on every
KVList whose keys all differ from the sentinel __None__ and whose values
all deduce to the string type; the empty list also round-trips, through
the dropped sentinel. -/
theorem C7_roundTrip_on_string_values (k : KVList)
    (h : ∀ p ∈ k.m_list, p.1 ≠ "__None__" ∧ KVList.deduceType p.2 = DpTag.tSTRING) :
    KVList.fromReading (some (KVList.toReading k "a")) = k := by
  obtain ⟨l⟩ := k
  cases l with
  | nil => rfl
  | cons p rest =>
      unfold KVList.toReading
      simp only [List.length_map, List.length_cons]
      rw [if_neg (Nat.succ_ne_zero rest.length)]
      unfold KVList.fromReading
      exact congrArg KVList.mk (roundTripAux (p :: rest) h)

/-- C7 witness: a concrete two-pair list of string-typed values
round-trips unchanged. -/
theorem C7_roundTrip_witness :
    KVList.fromReading (some (KVList.toReading ⟨[("target", "pump-out"), ("rate", "fast")]⟩ "a"))
      = ⟨[("target", "pump-out"), ("rate", "fast")]⟩ :=
  C7_roundTrip_on_string_values ⟨[("target", "pump-out"), ("rate", "fast")]⟩ (by decide)

/-- C7 counterexample: the round trip is not the identity on every
KVList: a pair whose key is the sentinel __None__ is dropped on the way
back, and an all-digit value is canonicalised through the integer type,
007 returning as 7. -/
theorem C7_sentinel_or_numeric_breaks_roundtrip :
    KVList.fromReading (some (KVList.toReading ⟨[("__None__", "abc")]⟩ "a"))
      ≠ ⟨[("__None__", "abc")]⟩ ∧
    KVList.fromReading (some (KVList.toReading ⟨[("x", "007")]⟩ "a")) = ⟨[("x", "7")]⟩ := by
  constructor
  · decide
  · decide

/-- The stored endpoints a match reads are untouched by the enable
setter. -/
theorem matchEnds_setEnable (p : ControlPipeline) (b : Bool) (s d : PipelineEndpoint) :
    ControlPipeline.matchEnds (ControlPipeline.setEnable b p) s d
      = ControlPipeline.matchEnds p s d := rfl

/-- Two enable settings in a row keep only the outer one. -/
theorem setEnable_setEnable (p : ControlPipeline) (b c : Bool) :
    ControlPipeline.setEnable c (ControlPipeline.setEnable b p)
      = ControlPipeline.setEnable c p := rfl

/-- Flipping the enable flag of the inserted pipeline does not change
what one pass finds, the result compared with its flag normalised. -/
theorem findPass_append_setEnable (l1 l2 : List ControlPipeline) (p : ControlPipeline)
    (b : Bool) (s d : PipelineEndpoint) :
    (findPass (l1 ++ ControlPipeline.setEnable b p :: l2) s d).map (ControlPipeline.setEnable true)
      = (findPass (l1 ++ p :: l2) s d).map (ControlPipeline.setEnable true) := by
  induction l1 with
  | nil =>
      simp only [List.nil_append, findPass, matchEnds_setEnable]
      by_cases hm : ControlPipeline.matchEnds p s d = true
      · rw [if_pos hm, if_pos hm]
        simp [setEnable_setEnable]
      · rw [if_neg hm, if_neg hm]
  | cons q rest ih =>
      simp only [List.cons_append, findPass]
      by_cases hm : ControlPipeline.matchEnds q s d = true
      · rw [if_pos hm, if_pos hm]
      · rw [if_neg hm, if_neg hm]
        exact ih

/-- Mapping a function over the first-hit combination of two optional
results commutes when it commutes with each side. -/
theorem mapOrElseAux {α β : Type} (f : α → β) (a1 a2 : Option α) (b1 b2 : Unit → Option α)
    (ha : a1.map f = a2.map f) (hb : (b1 ()).map f = (b2 ()).map f) :
    (a1.orElse b1).map f = (a2.orElse b2).map f := by
  cases a1 <;> cases a2 <;> simp_all [Option.orElse]

/-- C10: the enable flag plays no part in matching or execution:
flipping the flag of any one pipeline in the list leaves the result of
findPipeline unchanged up to that same flag, and getExecutionContext
hands out identical contexts whatever the flag, so a disabled pipeline
still matches and filters. -/
theorem C10_enable_flag_never_consulted :
    (∀ (l1 l2 : List ControlPipeline) (p : ControlPipeline) (b : Bool) (s d : PipelineEndpoint),
      (findPipeline (l1 ++ ControlPipeline.setEnable b p :: l2) s d).map
          (ControlPipeline.setEnable true)
        = (findPipeline (l1 ++ p :: l2) s d).map (ControlPipeline.setEnable true)) ∧
    (∀ (p : ControlPipeline) (b : Bool) (st : ContextState) (s d : PipelineEndpoint),
      ControlPipeline.getExecutionContext (ControlPipeline.setEnable b p) st s d
        = ControlPipeline.getExecutionContext p st s d) := by
  constructor
  · intro l1 l2 p b s d
    have h1 := findPass_append_setEnable l1 l2 p b s d
    have h2 := findPass_append_setEnable l1 l2 p b anyEndpoint d
    have h3 := findPass_append_setEnable l1 l2 p b s anyEndpoint
    have h4 := findPass_append_setEnable l1 l2 p b anyEndpoint anyEndpoint
    unfold findPipeline
    exact mapOrElseAux _ _ _ _ _ h1 (mapOrElseAux _ _ _ _ _ h2 (mapOrElseAux _ _ _ _ _ h3 h4))
  · intro p b st s d
    rfl

end FledgeDispatcher
